import Mathlib

/-!
Verification of the HCP network-mapping engine (src/detailed.py).

The file shallowly embeds the engine functions of the source:
  * `get_all_hcps_details`  (Node Aggregator),
  * `get_filtered_nodes`    (Node Filter),
  * `get_filtered_edges_for_display` (Edge Selector),
  * `generate_hcp_summary_data`      (Provider Summary Generator),
and proves the specification claims about them.

Modelling conventions: a pandas DataFrame of edge rows becomes a
`List EdgeRecord`; floats (influence scores, strengths) become `Rat`;
integer counts become `Nat`; nullable columns (`HCP_1/HCP_2` names,
`Papers`, `Panels`, `Trials`, `Metrics`) become `Option`; the
entropy-based collaboration diversity score, a genuinely real-valued
quantity, becomes `Real`.
-/

/-- One row of the input table (the Edge Store).  Field names follow the
CSV columns used by the source: `NPI_1`, `HCP_1`, `No. of Connections HCP 1`,
`Influence score_1`, `City1`, `State1` (and the side-2 versions), the shared
`Papers`, `Panels`, `Trials`, `Overall Connection Strength` and `Metrics`. -/
structure EdgeRecord where
  NPI_1 : Nat
  HCP_1 : Option String
  connectionsHCP1 : Nat
  influenceScore1 : Rat
  City1 : String
  State1 : String
  NPI_2 : Nat
  HCP_2 : Option String
  connectionsHCP2 : Nat
  influenceScore2 : Rat
  City2 : String
  State2 : String
  Papers : Option Nat
  Panels : Option Nat
  Trials : Option Nat
  overallConnectionStrength : Rat
  Metrics : Option String
deriving DecidableEq

/-- One side-view observation: an edge row projected onto one of its two
sides and renamed to the common schema (source lines 17-22). -/
structure SideObs where
  NPI : Nat
  hcp_name : Option String
  connections : Nat
  influence : Rat
  city : String
  state : String
  papers : Option Nat
  panels : Option Nat
  trials : Option Nat
deriving DecidableEq

/-- Projection of an edge row onto the side-1 columns (`hcp1_renamed`). -/
def hcp1View (e : EdgeRecord) : SideObs :=
  { NPI := e.NPI_1, hcp_name := e.HCP_1, connections := e.connectionsHCP1
  , influence := e.influenceScore1, city := e.City1, state := e.State1
  , papers := e.Papers, panels := e.Panels, trials := e.Trials }

/-- Projection of an edge row onto the side-2 columns (`hcp2_renamed`). -/
def hcp2View (e : EdgeRecord) : SideObs :=
  { NPI := e.NPI_2, hcp_name := e.HCP_2, connections := e.connectionsHCP2
  , influence := e.influenceScore2, city := e.City2, state := e.State2
  , papers := e.Papers, panels := e.Panels, trials := e.Trials }

/-- The concatenation `pd.concat([hcp1_renamed, hcp2_renamed])`: all side-1
views followed by all side-2 views (source line 24). -/
def sideObservations (df : List EdgeRecord) : List SideObs :=
  df.map hcp1View ++ df.map hcp2View

/-- The observations of one provider id, in concatenation order: the group
that `groupby('NPI')` forms for that id. -/
def groupObs (df : List EdgeRecord) (id : Nat) : List SideObs :=
  (sideObservations df).filter (fun o => o.NPI == id)

/-- One row of the aggregated node table (the ProviderNode of the spec). -/
structure ProviderNode where
  NPI : Nat
  hcp_name : String
  connections : Nat
  influence : Rat
  city : String
  state : String
  papers : Nat
  panels : Nat
  trials : Nat
deriving DecidableEq

/-- The per-group reduction of `get_all_hcps_details` (source lines 24-33):
name is the first non-missing name (default `N/A`), connections the max,
influence/city/state the first observation, papers/panels/trials the max
after `fillna(0)`. -/
def aggregateGroup (id : Nat) (g : List SideObs) : ProviderNode :=
  { NPI := id
  , hcp_name := ((g.filterMap (·.hcp_name)).head?).getD "N/A"
  , connections := (g.map (·.connections)).foldr max 0
  , influence := ((g.map (·.influence)).head?).getD 0
  , city := ((g.map (·.city)).head?).getD ""
  , state := ((g.map (·.state)).head?).getD ""
  , papers := (g.map (fun o => o.papers.getD 0)).foldr max 0
  , panels := (g.map (fun o => o.panels.getD 0)).foldr max 0
  , trials := (g.map (fun o => o.trials.getD 0)).foldr max 0 }

/-- The Node Aggregator `get_all_hcps_details` (source lines 13-34): one
aggregated row per distinct provider id occurring on either side of any
edge, each reduced from that id's group of side observations. -/
def get_all_hcps_details (df : List EdgeRecord) : List ProviderNode :=
  (((sideObservations df).map (·.NPI)).dedup).map (fun id => aggregateGroup id (groupObs df id))

/-- Sort key selector of the Node Filter (`sort_by` is `'connections'` or
`'influence'`). -/
inductive SortKey where
  | connections
  | influence
deriving DecidableEq

/-- Numeric value of the sort key on a node row. -/
def sortKeyVal (k : SortKey) (r : ProviderNode) : Rat :=
  match k with
  | .connections => (r.connections : Rat)
  | .influence => r.influence

/-- Descending order on node rows by a numeric key; `nlargest` keeps the
rows whose key values come first in this order. -/
def keyDescLe (key : ProviderNode → Rat) (a b : ProviderNode) : Prop :=
  key b ≤ key a

instance (key : ProviderNode → Rat) : DecidableRel (keyDescLe key) :=
  fun a b => inferInstanceAs (Decidable (key b ≤ key a))

instance (key : ProviderNode → Rat) : IsTotal ProviderNode (keyDescLe key) :=
  ⟨fun a b => le_total (key b) (key a)⟩

instance (key : ProviderNode → Rat) : IsTrans ProviderNode (keyDescLe key) :=
  ⟨fun _ _ _ h1 h2 => le_trans h2 h1⟩

/-- The predicate filters of `get_filtered_nodes` (source lines 43-56):
state membership (skipped when the selected-state list is empty), city
membership (likewise), then the five inclusive lower bounds. -/
def survivingNodes (nodes : List ProviderNode) (selStates selCities : List String)
    (minConn : Nat) (minInfl : Rat) (minPapers minPanels minTrials : Nat) : List ProviderNode :=
  let s1 := if selStates.isEmpty then nodes else nodes.filter (fun r => selStates.contains r.state)
  let s2 := if selCities.isEmpty then s1 else s1.filter (fun r => selCities.contains r.city)
  s2.filter (fun r => decide (minConn ≤ r.connections) && decide (minInfl ≤ r.influence)
    && decide (minPapers ≤ r.papers) && decide (minPanels ≤ r.panels)
    && decide (minTrials ≤ r.trials))

/-- The Node Filter `get_filtered_nodes` (source lines 37-62): apply the
predicates, return empty when nothing survives, otherwise take the
`min top_n survivors` rows largest by the sort key (pandas `nlargest`,
which keeps earlier rows on ties, is a stable descending sort plus take). -/
def get_filtered_nodes (nodes : List ProviderNode) (top_n : Nat)
    (selStates selCities : List String) (minConn : Nat) (minInfl : Rat)
    (minPapers minPanels minTrials : Nat) (sortBy : SortKey) : List ProviderNode :=
  let surviving := survivingNodes nodes selStates selCities minConn minInfl minPapers minPanels minTrials
  if surviving.isEmpty then []
  else (List.insertionSort (keyDescLe (sortKeyVal sortBy)) surviving).take (min top_n surviving.length)

/-- The Edge Selector `get_filtered_edges_for_display` (source lines 65-78):
empty at once when the surviving-id list is empty, otherwise the edges with
both endpoints in the list and strength inside the inclusive range. -/
def get_filtered_edges_for_display (df : List EdgeRecord) (npis : List Nat)
    (minStrength maxStrength : Rat) : List EdgeRecord :=
  if npis.isEmpty then []
  else df.filter (fun e => npis.contains e.NPI_1 && npis.contains e.NPI_2
    && decide (minStrength ≤ e.overallConnectionStrength)
    && decide (e.overallConnectionStrength ≤ maxStrength))

/-- Lookup of one provider row by id: `df[df['NPI'] == id]` followed by
`iloc[0]` when non-empty (source lines 206-210). -/
def findRow (nodes : List ProviderNode) (id : Nat) : Option ProviderNode :=
  (nodes.filter (fun r => r.NPI == id)).head?

/-- Direct connections of a provider: the edge rows where the id appears on
either side (source lines 223-225). -/
def directConnections (df : List EdgeRecord) (id : Nat) : List EdgeRecord :=
  df.filter (fun e => e.NPI_1 == id || e.NPI_2 == id)

/-- Mean of `Overall Connection Strength` over the direct connections,
`0.0` when there are none (source line 226). -/
def avgStrength (dc : List EdgeRecord) : Rat :=
  if dc.isEmpty then 0 else (dc.map (·.overallConnectionStrength)).sum / (dc.length : Rat)

/-- The set of ids connected to the target: both endpoint columns of the
direct connections, deduplicated, with the target itself discarded
(source lines 229-230). -/
def connectedNpis (df : List EdgeRecord) (id : Nat) : List Nat :=
  ((((directConnections df id).map (·.NPI_1)) ++ ((directConnections df id).map (·.NPI_2))).dedup).filter
    (fun n => n != id)

/-- Node rows of the connected ids (source line 231). -/
def connectedHcpsDetails (nodes : List ProviderNode) (df : List EdgeRecord) (id : Nat) : List ProviderNode :=
  nodes.filter (fun r => (connectedNpis df id).contains r.NPI)

/-- Count of distinct states among the connected providers (source line 232). -/
def uniqueStatesConnected (nodes : List ProviderNode) (df : List EdgeRecord) (id : Nat) : Nat :=
  (((connectedHcpsDetails nodes df id).map (·.state)).dedup).length

/-- Count of distinct cities among the connected providers (source line 233). -/
def uniqueCitiesConnected (nodes : List ProviderNode) (df : List EdgeRecord) (id : Nat) : Nat :=
  (((connectedHcpsDetails nodes df id).map (·.city)).dedup).length

/-- The non-missing `Metrics` values of the direct connections
(source line 236). -/
def allDirectMetrics (dc : List EdgeRecord) : List String :=
  dc.filterMap (·.Metrics)

/-- The `value_counts` of the metric labels: each distinct label, in order
of first appearance, with its multiplicity (source line 237; the claims
depend only on the multiset of counts, never on the display order of
`value_counts`). -/
def metricCounts (ms : List String) : List (String × Nat) :=
  ms.dedup.map (fun m => (m, ms.count m))

/-- Descending order on labelled counts, used for the top-2 dominant
metrics. -/
def pairDescLe (a b : String × Nat) : Prop := b.2 ≤ a.2

instance : DecidableRel pairDescLe :=
  fun a b => inferInstanceAs (Decidable (b.2 ≤ a.2))

instance : IsTotal (String × Nat) pairDescLe := ⟨fun a b => le_total b.2 a.2⟩

instance : IsTrans (String × Nat) pairDescLe := ⟨fun _ _ _ h1 h2 => le_trans h2 h1⟩

/-- The (up to) two most frequent metric labels joined with "and", or the
fallback sentence when no direct connection carries a label
(source lines 238-239). -/
def dominantMetricsText (dc : List EdgeRecord) : String :=
  let counts := metricCounts (allDirectMetrics dc)
  let dominant := ((List.insertionSort pairDescLe counts).take 2).map (·.1)
  if dominant.isEmpty then "no specific dominant metric identified"
  else String.intercalate " and " dominant

/-- The pandas linear-interpolation `quantile(0.9)`: on the sorted values
the virtual position is `0.9 * (n - 1)`, interpolated between its two
neighbouring ranks (source lines 251-255). -/
def quantile90 (xs : List Rat) : Rat :=
  let s := List.insertionSort (fun a b : Rat => a ≤ b) xs
  if s.length = 0 then 0
  else
    let pos : Rat := (9 / 10) * ((s.length : Rat) - 1)
    let j : Nat := pos.floor.toNat
    let vj := s.getD j 0
    let vj1 := s.getD (j + 1) vj
    vj + (pos - (j : Rat)) * (vj1 - vj)

/-- 90th percentile of influence across the node table. -/
def kolInfluenceThreshold (nodes : List ProviderNode) : Rat :=
  quantile90 (nodes.map (·.influence))

/-- 90th percentile of connection counts across the node table. -/
def kolConnectionsThreshold (nodes : List ProviderNode) : Rat :=
  quantile90 (nodes.map (fun r => (r.connections : Rat)))

/-- 90th percentile of combined activity (papers + panels + trials) across
the node table. -/
def kolActivityThreshold (nodes : List ProviderNode) : Rat :=
  quantile90 (nodes.map (fun r => ((r.papers + r.panels + r.trials : Nat) : Rat)))

/-- The KOL test of source lines 256-260: all three thresholds met
simultaneously. -/
def isKol (nodes : List ProviderNode) (hcp : ProviderNode) : Bool :=
  decide (kolInfluenceThreshold nodes ≤ hcp.influence)
    && decide (kolConnectionsThreshold nodes ≤ (hcp.connections : Rat))
    && decide (kolActivityThreshold nodes ≤ ((hcp.papers + hcp.panels + hcp.trials : Nat) : Rat))

/-- One entry of the top-connections list (source lines 294-301). -/
structure TopConn where
  name : String
  npi : Nat
  strength : Rat
  influence : Rat
  metric_type : String
  impact_statement : String
deriving DecidableEq

/-- The other endpoint of a direct connection: `NPI_2` when the target sits
in `NPI_1`, else `NPI_1` (source line 267). -/
def otherEndpoint (e : EdgeRecord) (id : Nat) : Nat :=
  if e.NPI_1 == id then e.NPI_2 else e.NPI_1

/-- The impact statement chosen for a connection (source lines 276-292):
first the five fixed metric categories with fixed wording, then the first
positive activity count of the connected provider's aggregated row in the
order papers, panels, trials, then the generic sentence. -/
def impactStatement (metric : String) (r : ProviderNode) : String :=
  if metric = "Publishers" then "Co-authored on publications."
  else if metric = "Affiliations" then "Shared professional affiliations."
  else if metric = "Promotional Events" then "Collaborated on promotional events."
  else if metric = "Clinical Trials" then "Participated in clinical trials."
  else if metric = "Panels" then "Contributed to advisory panels."
  else if 0 < r.papers then "Collaborated on " ++ Nat.repr r.papers ++ " papers."
  else if 0 < r.panels then "Contributed to " ++ Nat.repr r.panels ++ " panels."
  else if 0 < r.trials then "Engaged in " ++ Nat.repr r.trials ++ " trials."
  else "Engaged in a key professional collaboration."

/-- The top-connections entry built from one direct connection, or nothing
when the other endpoint has no row in the node table (source lines 266-301).
A missing `Metrics` value is replaced by `General Collaboration`
(`row.get('Metrics', 'General Collaboration')`), which matches none of the
five fixed categories, exactly as a missing value matches none of them. -/
def topConnEntry (nodes : List ProviderNode) (id : Nat) (e : EdgeRecord) : Option TopConn :=
  match findRow nodes (otherEndpoint e id) with
  | none => none
  | some r =>
    let mt := (e.Metrics).getD "General Collaboration"
    some { name := r.hcp_name, npi := otherEndpoint e id
         , strength := e.overallConnectionStrength, influence := r.influence
         , metric_type := mt, impact_statement := impactStatement mt r }

/-- Composite score of a top-connections entry:
`0.6 * influence + 0.4 * strength` (source line 303). -/
def connScore (c : TopConn) : Rat :=
  (6 / 10 : Rat) * c.influence + (4 / 10 : Rat) * c.strength

/-- Descending order on entries by composite score. -/
def connDescLe (a b : TopConn) : Prop := connScore b ≤ connScore a

instance : DecidableRel connDescLe :=
  fun a b => inferInstanceAs (Decidable (connScore b ≤ connScore a))

instance : IsTotal TopConn connDescLe := ⟨fun a b => le_total (connScore b) (connScore a)⟩

instance : IsTrans TopConn connDescLe := ⟨fun _ _ _ h1 h2 => le_trans h2 h1⟩

/-- The ranked top-connections list (source lines 264-303): one entry per
direct connection whose other endpoint resolves in the node table, sorted
descending by composite score. -/
def topConnections (nodes : List ProviderNode) (df : List EdgeRecord) (id : Nat) : List TopConn :=
  List.insertionSort connDescLe ((directConnections df id).filterMap (topConnEntry nodes id))

/-- The five fixed metric categories (source line 306). -/
def definedMetrics : List String :=
  ["Publishers", "Affiliations", "Promotional Events", "Clinical Trials", "Panels"]

/-- Count of direct connections carrying one given recognised metric label
(source lines 307-313). -/
def bucketCount (dc : List EdgeRecord) (m : String) : Nat :=
  ((allDirectMetrics dc).filter (fun v => v == m)).length

/-- Count of direct connections carrying a non-missing metric label outside
the five fixed categories (source lines 308-315). -/
def otherMetricsCount (dc : List EdgeRecord) : Nat :=
  ((allDirectMetrics dc).filter (fun v => !(definedMetrics.contains v))).length

/-- Total number of categorised connections: the five buckets plus the
other bucket (source line 317). -/
def totalMetricInstances (dc : List EdgeRecord) : Nat :=
  ((definedMetrics.map (bucketCount dc)).sum) + otherMetricsCount dc

/-- Renders a rational with one digit after the decimal point.  Used only
inside narrative strings; it mirrors the shape of the Python `.1f`
formatting, whose exact float rounding is presentational and not relied on
by any theorem. -/
def fmt1 (q : Rat) : String :=
  let n : Int := round (q * 10)
  if n < 0 then "-" ++ Nat.repr ((-n).toNat / 10) ++ "." ++ Nat.repr ((-n).toNat % 10)
  else Nat.repr (n.toNat / 10) ++ "." ++ Nat.repr (n.toNat % 10)

/-- One bucket line of the metrics breakdown (source lines 324 and 328). -/
def breakdownLine (m : String) (count : Nat) (pct : Rat) : String :=
  "- **" ++ m ++ "**: **" ++ Nat.repr count ++ "** connections (**" ++ fmt1 pct
    ++ "%** of direct metrics)"

/-- The breakdown line shown when nothing is categorised (source line 341). -/
def noMetricsLine : String :=
  "- **No specific connection metrics or direct connections found for this HCP to analyze dynamics.**"

/-- The metrics breakdown list (source lines 317-328 and 340-341): one line
per non-zero fixed bucket in the fixed order, then the other bucket when
non-zero, each with its percentage of the categorised total; a single
neutral line when nothing is categorised. -/
def metricsBreakdown (dc : List EdgeRecord) : List String :=
  let total := totalMetricInstances dc
  if 0 < total then
    ((definedMetrics.filter (fun m => 0 < bucketCount dc m)).map
      (fun m => breakdownLine m (bucketCount dc m) ((bucketCount dc m : Rat) / (total : Rat) * 100)))
    ++ (if 0 < otherMetricsCount dc then
          [breakdownLine "Other/Undefined" (otherMetricsCount dc)
            ((otherMetricsCount dc : Rat) / (total : Rat) * 100)]
        else [])
  else [noMetricsLine]

/-- The five fixed buckets sorted by count descending (source line 333;
Python's stable sort keeps the fixed order on ties). -/
def sortedMetricItems (dc : List EdgeRecord) : List (String × Nat) :=
  List.insertionSort pairDescLe (definedMetrics.map (fun m => (m, bucketCount dc m)))

/-- The metrics interpretation sentence (source lines 319 and 330-339):
empty when nothing is categorised; otherwise built from the top one or two
fixed buckets, with `diverse engagement` standing in when no fixed bucket
is non-zero. -/
def metricsInterpretation (dc : List EdgeRecord) : String :=
  if 0 < totalMetricInstances dc then
    if (allDirectMetrics dc).isEmpty then
      "This HCP's connection dynamics are not clearly categorized by the standard metrics."
    else
      let items := sortedMetricItems dc
      let dominant := if 0 < (items.headD ("", 0)).2 then (items.headD ("", 0)).1
                      else "diverse engagement"
      if 1 < items.length && 0 < (items.getD 1 ("", 0)).2 then
        "This highlights a strong focus on **" ++ dominant
          ++ "** connections, with notable engagement in **" ++ (items.getD 1 ("", 0)).1 ++ "**."
      else
        "This HCP's network shows a strong focus on **" ++ dominant ++ "** connections."
  else ""

/-- The pandas `.min()` of a column: plain minimum of the values. -/
def pandasMin (xs : List Rat) : Rat :=
  match xs with
  | [] => 0
  | x :: t => t.foldl min x

/-- The influence percentile (source lines 216-220): for more than one row,
the count of rows with strictly lower influence over the count of other
rows, as a percentage, special-cased to 0 when the target holds the
minimum influence; 0 for a single-row table. -/
def influencePercentile (nodes : List ProviderNode) (infl : Rat) : Rat :=
  if 1 < nodes.length then
    if infl != pandasMin (nodes.map (·.influence)) then
      ((nodes.filter (fun r => r.influence < infl)).length : Rat) / ((nodes.length : Rat) - 1) * 100
    else 0
  else 0

/-- The influence rank narrative (source lines 216-220): the sole-provider
sentence for a single-row table, otherwise the top-percentage sentence. -/
def influenceRankText (nodes : List ProviderNode) (infl : Rat) : String :=
  if 1 < nodes.length then
    "placing them in the top " ++ fmt1 (100 - influencePercentile nodes infl) ++ "% of all HCPs"
  else " (only HCP in the network)"

/-- The summary record returned by `generate_hcp_summary_data`
(source lines 343-361).  The real-valued collaboration diversity score is
kept as the separate definition `collaboration_diversity_score` so that
the record stays computable. -/
structure HcpSummary where
  hcp_data : ProviderNode
  total_connections : Nat
  influence_score : Rat
  influence_rank_text : String
  influence_percentile : Rat
  avg_connection_strength : Rat
  unique_states_connected : Nat
  unique_cities_connected : Nat
  dominant_metrics_text : String
  top_connections_list : List TopConn
  metrics_breakdown : List String
  metrics_interpretation : String
  papers : Nat
  panels : Nat
  trials : Nat
  kol_status : String
deriving DecidableEq

/-- The Provider Summary Generator `generate_hcp_summary_data`
(source lines 199-361): `none` for a missing id, an empty node table or an
id absent from it, otherwise the assembled summary record. -/
def generate_hcp_summary_data (selected_npi : Option Nat) (nodes : List ProviderNode)
    (df : List EdgeRecord) : Option HcpSummary :=
  match selected_npi with
  | none => none
  | some id =>
    if nodes.isEmpty then none
    else
      match findRow nodes id with
      | none => none
      | some hcp =>
        let dc := directConnections df id
        some { hcp_data := hcp
             , total_connections := hcp.connections
             , influence_score := hcp.influence
             , influence_rank_text := influenceRankText nodes hcp.influence
             , influence_percentile := influencePercentile nodes hcp.influence
             , avg_connection_strength := avgStrength dc
             , unique_states_connected := uniqueStatesConnected nodes df id
             , unique_cities_connected := uniqueCitiesConnected nodes df id
             , dominant_metrics_text := dominantMetricsText dc
             , top_connections_list := topConnections nodes df id
             , metrics_breakdown := metricsBreakdown dc
             , metrics_interpretation := metricsInterpretation dc
             , papers := hcp.papers
             , panels := hcp.panels
             , trials := hcp.trials
             , kol_status := if isKol nodes hcp then "Key Opinion Leader" else "Standard HCP" }

/-- Shannon entropy term of the source (line 246), including the `p > 0`
guard of the generator expression. -/
noncomputable def shannonEntropy (probs : List Real) : Real :=
  -((probs.map (fun p => if 0 < p then p * Real.logb 2 p else 0)).sum)

/-- Shannon entropy as the specification words it, without the guard. -/
noncomputable def shannonEntropySpec (probs : List Real) : Real :=
  -((probs.map (fun p => p * Real.logb 2 p)).sum)

/-- The multiplicities of the distinct metric labels among one provider's
direct connections: the value column of `metric_counts` (source line 237). -/
def metricCountsOf (df : List EdgeRecord) (id : Nat) : List Nat :=
  (metricCounts (allDirectMetrics (directConnections df id))).map (·.2)

/-- The label frequency distribution
`probabilities = metric_counts / metric_counts.sum()` (source line 245). -/
noncomputable def metricProbs (counts : List Nat) : List Real :=
  counts.map (fun c : Nat => (c : Real) / (counts.sum : Real))

/-- The collaboration diversity score (source lines 241-248): zero when no
direct connection carries a metric label; otherwise the Shannon entropy of
the label frequency distribution, divided by `log2` of the number of
distinct labels whenever that maximum entropy is positive, else zero. -/
noncomputable def collaboration_diversity_score (df : List EdgeRecord) (id : Nat) : Real :=
  let counts := metricCountsOf df id
  if counts.isEmpty then 0
  else
    let maxEntropy : Real := if 0 < counts.length then Real.logb 2 (counts.length : Real) else 1
    if 0 < maxEntropy then shannonEntropy (metricProbs counts) / maxEntropy else 0

/-- Example edge rows and tables used by the witness theorems. -/
def exEdge1 : EdgeRecord :=
  { NPI_1 := 1, HCP_1 := some "Alice", connectionsHCP1 := 10, influenceScore1 := 5
  , City1 := "Lima", State1 := "OH"
  , NPI_2 := 2, HCP_2 := some "Bob", connectionsHCP2 := 4, influenceScore2 := 3
  , City2 := "Reno", State2 := "NV"
  , Papers := some 2, Panels := some 0, Trials := some 1
  , overallConnectionStrength := 4 / 5, Metrics := some "Publishers" }

/-- Second example row: provider 1 appears again as side 1 with a larger
reported connection count. -/
def exEdge2 : EdgeRecord :=
  { NPI_1 := 1, HCP_1 := some "Alice", connectionsHCP1 := 15, influenceScore1 := 5
  , City1 := "Lima", State1 := "OH"
  , NPI_2 := 3, HCP_2 := some "Cara", connectionsHCP2 := 7, influenceScore2 := 9
  , City2 := "Waco", State2 := "TX"
  , Papers := some 1, Panels := some 3, Trials := none
  , overallConnectionStrength := 3 / 10, Metrics := some "Panels" }

/-- Example edge store. -/
def exDf : List EdgeRecord := [exEdge1, exEdge2]

/-- Node table aggregated from the example edge store. -/
def exNodes : List ProviderNode := get_all_hcps_details exDf

/-- A self-loop row: both sides carry provider 5. -/
def exLoopEdge : EdgeRecord :=
  { NPI_1 := 5, HCP_1 := some "Dana", connectionsHCP1 := 2, influenceScore1 := 7
  , City1 := "Kent", State1 := "WA"
  , NPI_2 := 5, HCP_2 := some "Dana", connectionsHCP2 := 2, influenceScore2 := 7
  , City2 := "Kent", State2 := "WA"
  , Papers := some 0, Panels := some 0, Trials := some 0
  , overallConnectionStrength := 1 / 2, Metrics := some "Publishers" }

/-- Edge store holding only the self-loop row. -/
def exLoopDf : List EdgeRecord := [exLoopEdge]

/-- A row whose metric label matches none of the five fixed categories. -/
def exOtherEdge : EdgeRecord :=
  { NPI_1 := 1, HCP_1 := some "Alice", connectionsHCP1 := 3, influenceScore1 := 5
  , City1 := "Lima", State1 := "OH"
  , NPI_2 := 2, HCP_2 := some "Bob", connectionsHCP2 := 3, influenceScore2 := 3
  , City2 := "Reno", State2 := "NV"
  , Papers := some 0, Panels := some 0, Trials := some 0
  , overallConnectionStrength := 1 / 2, Metrics := some "Expert Network" }

/-- Edge store holding only the unrecognised-label row. -/
def exOtherDf : List EdgeRecord := [exOtherEdge]

/-- A row carrying no metric label at all. -/
def exPlainEdge : EdgeRecord :=
  { NPI_1 := 7, HCP_1 := some "Eve", connectionsHCP1 := 1, influenceScore1 := 2
  , City1 := "Ames", State1 := "IA"
  , NPI_2 := 8, HCP_2 := some "Finn", connectionsHCP2 := 1, influenceScore2 := 4
  , City2 := "Cody", State2 := "WY"
  , Papers := none, Panels := none, Trials := none
  , overallConnectionStrength := 1 / 4, Metrics := none }

/-- Edge store holding only the label-free row. -/
def exPlainDf : List EdgeRecord := [exPlainEdge]

/-! ### Helper lemmas -/

theorem foldrMax_le_of_mem {l : List Nat} {x : Nat} (hx : x ∈ l) : x ≤ l.foldr max 0 := by
  induction l with
  | nil => cases hx
  | cons a t ih =>
    rcases List.mem_cons.mp hx with rfl | h
    · exact le_max_left _ _
    · exact le_trans (ih h) (le_max_right _ _)

theorem foldrMax_mem {l : List Nat} (h : l ≠ []) : l.foldr max 0 ∈ l := by
  induction l with
  | nil => exact absurd rfl h
  | cons a t ih =>
    cases t with
    | nil =>
      simp [Nat.max_eq_left (Nat.zero_le a)]
    | cons b u =>
      rcases max_choice a ((b :: u).foldr max 0) with h1 | h1
      · simp only [List.foldr_cons] at h1 ⊢
        rw [h1]
        exact List.mem_cons_self _ _
      · simp only [List.foldr_cons] at h1 ⊢
        rw [h1]
        exact List.mem_cons_of_mem _ (ih (by simp))

theorem findRow_eq_none_iff {nodes : List ProviderNode} {id : Nat} :
    findRow nodes id = none ↔ id ∉ nodes.map (·.NPI) := by
  simp only [findRow, List.head?_eq_none_iff, List.filter_eq_nil_iff, List.mem_map,
    beq_iff_eq, not_exists, not_and]

theorem findRow_some {nodes : List ProviderNode} {id : Nat} {r : ProviderNode}
    (h : findRow nodes id = some r) : r ∈ nodes ∧ r.NPI = id := by
  unfold findRow at h
  have hmem : r ∈ nodes.filter (fun x => x.NPI == id) := by
    cases hf : nodes.filter (fun x => x.NPI == id) with
    | nil => rw [hf] at h; cases h
    | cons a t =>
      rw [hf] at h
      simp only [List.head?_cons, Option.some.injEq] at h
      rw [← h]
      exact List.mem_cons_self _ _
  rw [List.mem_filter] at hmem
  exact ⟨hmem.1, by simpa [beq_iff_eq] using hmem.2⟩

theorem findRow_nodes_ne_nil {nodes : List ProviderNode} {id : Nat} {r : ProviderNode}
    (h : findRow nodes id = some r) : nodes.isEmpty = false := by
  cases nodes with
  | nil => simp [findRow] at h
  | cons a t => rfl

theorem findRow_isSome {nodes : List ProviderNode} {id : Nat} (h : id ∈ nodes.map (·.NPI)) :
    ∃ r, findRow nodes id = some r := by
  cases hf : findRow nodes id with
  | some r => exact ⟨r, rfl⟩
  | none => exact (findRow_eq_none_iff.mp hf h).elim

theorem generate_eq_some {nodes : List ProviderNode} {df : List EdgeRecord} {id : Nat}
    {hcp : ProviderNode} (h : findRow nodes id = some hcp) :
    generate_hcp_summary_data (some id) nodes df = some
      { hcp_data := hcp
      , total_connections := hcp.connections
      , influence_score := hcp.influence
      , influence_rank_text := influenceRankText nodes hcp.influence
      , influence_percentile := influencePercentile nodes hcp.influence
      , avg_connection_strength := avgStrength (directConnections df id)
      , unique_states_connected := uniqueStatesConnected nodes df id
      , unique_cities_connected := uniqueCitiesConnected nodes df id
      , dominant_metrics_text := dominantMetricsText (directConnections df id)
      , top_connections_list := topConnections nodes df id
      , metrics_breakdown := metricsBreakdown (directConnections df id)
      , metrics_interpretation := metricsInterpretation (directConnections df id)
      , papers := hcp.papers
      , panels := hcp.panels
      , trials := hcp.trials
      , kol_status := if isKol nodes hcp then "Key Opinion Leader" else "Standard HCP" } := by
  unfold generate_hcp_summary_data
  rw [findRow_nodes_ne_nil h]
  simp [h]

/-! ### Claims -/

/-- C7: the Edge Selector returns exactly the edge records whose two
endpoint ids are both in the surviving-id set and whose strength lies in
the inclusive range `[min_strength, max_strength]` (so the output never
references an id outside the set nor a strength outside the range), and it
returns an empty result when the surviving-id set is empty. -/
theorem edge_selector_spec (df : List EdgeRecord) (npis : List Nat) (minS maxS : Rat) :
    (get_filtered_edges_for_display df npis minS maxS
        = df.filter (fun e => npis.contains e.NPI_1 && npis.contains e.NPI_2
            && decide (minS ≤ e.overallConnectionStrength)
            && decide (e.overallConnectionStrength ≤ maxS)))
    ∧ (∀ e, e ∈ get_filtered_edges_for_display df npis minS maxS
        ↔ (e ∈ df ∧ e.NPI_1 ∈ npis ∧ e.NPI_2 ∈ npis
            ∧ minS ≤ e.overallConnectionStrength ∧ e.overallConnectionStrength ≤ maxS))
    ∧ (npis = [] → get_filtered_edges_for_display df npis minS maxS = []) := by
  have hfilter : get_filtered_edges_for_display df npis minS maxS
      = df.filter (fun e => npis.contains e.NPI_1 && npis.contains e.NPI_2
          && decide (minS ≤ e.overallConnectionStrength)
          && decide (e.overallConnectionStrength ≤ maxS)) := by
    unfold get_filtered_edges_for_display
    cases hn : npis with
    | nil =>
      simp only [List.isEmpty_nil, if_true]
      rw [eq_comm, List.filter_eq_nil_iff]
      intro e _
      simp
    | cons a t => rfl
  refine ⟨hfilter, ?_, ?_⟩
  · intro e
    rw [hfilter, List.mem_filter]
    simp [and_assoc]
  · intro h
    subst h
    rfl

/-- Witness for C7 at a concrete input: with an empty surviving-id list the
selector returns no edges, and a kept edge satisfies all conditions. -/
theorem edge_selector_spec_witness :
    get_filtered_edges_for_display exDf [] 0 1 = []
    ∧ (exEdge1 ∈ get_filtered_edges_for_display exDf [1, 2, 3] 0 1
        ↔ (exEdge1 ∈ exDf ∧ exEdge1.NPI_1 ∈ [1, 2, 3] ∧ exEdge1.NPI_2 ∈ [1, 2, 3]
            ∧ (0 : Rat) ≤ exEdge1.overallConnectionStrength
            ∧ exEdge1.overallConnectionStrength ≤ 1)) :=
  ⟨(edge_selector_spec exDf [] 0 1).2.2 rfl, (edge_selector_spec exDf [1, 2, 3] 0 1).2.1 exEdge1⟩

/-- C8: the Provider Summary Generator returns an absent result (never an
error) when the selected id is null, when the node table is empty, and when
the id is absent from the node table. -/
theorem generator_absent_spec (nodes : List ProviderNode) (df : List EdgeRecord)
    (idOpt : Option Nat) :
    (generate_hcp_summary_data none nodes df = none)
    ∧ (generate_hcp_summary_data idOpt [] df = none)
    ∧ (∀ id : Nat, id ∉ nodes.map (·.NPI) → generate_hcp_summary_data (some id) nodes df = none) := by
  refine ⟨rfl, ?_, ?_⟩
  · cases idOpt with
    | none => rfl
    | some id => rfl
  · intro id hid
    have hnone : findRow nodes id = none := findRow_eq_none_iff.mpr hid
    unfold generate_hcp_summary_data
    cases hn : nodes.isEmpty with
    | true => simp
    | false => simp [hnone]

/-- Witness for C8 at a concrete input: id 99 appears nowhere in the
example node table and the generator returns none. -/
theorem generator_absent_spec_witness :
    generate_hcp_summary_data (some 99) exNodes exDf = none :=
  (generator_absent_spec exNodes exDf (some 99)).2.2 99 (by decide)

theorem mem_survivingNodes {nodes : List ProviderNode} {selStates selCities : List String}
    {minConn : Nat} {minInfl : Rat} {minPapers minPanels minTrials : Nat} {r : ProviderNode}
    (h : r ∈ survivingNodes nodes selStates selCities minConn minInfl minPapers minPanels minTrials) :
    r ∈ nodes ∧ (selStates ≠ [] → r.state ∈ selStates) ∧ (selCities ≠ [] → r.city ∈ selCities)
      ∧ minConn ≤ r.connections ∧ minInfl ≤ r.influence ∧ minPapers ≤ r.papers
      ∧ minPanels ≤ r.panels ∧ minTrials ≤ r.trials := by
  unfold survivingNodes at h
  rw [List.mem_filter] at h
  obtain ⟨h2, hb⟩ := h
  simp only [Bool.and_eq_true, decide_eq_true_eq] at hb
  have hstep2 : (r ∈ (if selStates.isEmpty then nodes
        else nodes.filter (fun x => selStates.contains x.state)))
      ∧ (selCities ≠ [] → r.city ∈ selCities) := by
    by_cases hc : selCities.isEmpty
    · rw [if_pos hc] at h2
      exact ⟨h2, fun hne => absurd (List.isEmpty_iff.mp hc) hne⟩
    · rw [if_neg hc] at h2
      rw [List.mem_filter] at h2
      refine ⟨h2.1, fun _ => ?_⟩
      have := h2.2
      simpa using this
  have hstep1 : r ∈ nodes ∧ (selStates ≠ [] → r.state ∈ selStates) := by
    by_cases hs : selStates.isEmpty
    · rw [if_pos hs] at hstep2
      exact ⟨hstep2.1, fun hne => absurd (List.isEmpty_iff.mp hs) hne⟩
    · have h1 := hstep2.1
      rw [if_neg hs] at h1
      rw [List.mem_filter] at h1
      refine ⟨h1.1, fun _ => ?_⟩
      have := h1.2
      simpa using this
  exact ⟨hstep1.1, hstep1.2, hstep2.2, hb.1.1.1.1, hb.1.1.1.2, hb.1.1.2, hb.1.2, hb.2⟩

theorem survivingNodes_nil {selStates selCities : List String}
    {minConn : Nat} {minInfl : Rat} {minPapers minPanels minTrials : Nat} :
    survivingNodes [] selStates selCities minConn minInfl minPapers minPanels minTrials = [] := by
  unfold survivingNodes
  by_cases hs : selStates.isEmpty <;> by_cases hc : selCities.isEmpty <;> simp [hs, hc]

/-- C6: the Node Filter output has at most `min top_n survivors` rows,
every returned row satisfies all active predicates (state membership when
the selected-state set is non-empty, city membership when the
selected-city set is non-empty, and the five inclusive minimum
thresholds), and it returns an empty result, not an error, when zero rows
survive or the input table is empty. -/
theorem node_filter_spec (nodes : List ProviderNode) (top_n : Nat)
    (selStates selCities : List String) (minConn : Nat) (minInfl : Rat)
    (minPapers minPanels minTrials : Nat) (sortBy : SortKey) :
    (get_filtered_nodes nodes top_n selStates selCities minConn minInfl minPapers minPanels
        minTrials sortBy).length
      ≤ min top_n (survivingNodes nodes selStates selCities minConn minInfl minPapers minPanels
        minTrials).length
    ∧ (∀ r ∈ get_filtered_nodes nodes top_n selStates selCities minConn minInfl minPapers
        minPanels minTrials sortBy,
        r ∈ nodes ∧ (selStates ≠ [] → r.state ∈ selStates) ∧ (selCities ≠ [] → r.city ∈ selCities)
          ∧ minConn ≤ r.connections ∧ minInfl ≤ r.influence ∧ minPapers ≤ r.papers
          ∧ minPanels ≤ r.panels ∧ minTrials ≤ r.trials)
    ∧ (survivingNodes nodes selStates selCities minConn minInfl minPapers minPanels minTrials = []
        → get_filtered_nodes nodes top_n selStates selCities minConn minInfl minPapers minPanels
            minTrials sortBy = [])
    ∧ (nodes = [] → get_filtered_nodes nodes top_n selStates selCities minConn minInfl minPapers
        minPanels minTrials sortBy = []) := by
  have hmem : ∀ r ∈ get_filtered_nodes nodes top_n selStates selCities minConn minInfl minPapers
      minPanels minTrials sortBy,
      r ∈ survivingNodes nodes selStates selCities minConn minInfl minPapers minPanels minTrials := by
    intro r hr
    unfold get_filtered_nodes at hr
    by_cases he : (survivingNodes nodes selStates selCities minConn minInfl minPapers minPanels
        minTrials).isEmpty
    · rw [if_pos he] at hr
      cases hr
    · rw [if_neg he] at hr
      have h1 := List.mem_of_mem_take hr
      exact (List.perm_insertionSort (keyDescLe (sortKeyVal sortBy)) _).mem_iff.mp h1
  refine ⟨?_, fun r hr => mem_survivingNodes (hmem r hr), ?_, ?_⟩
  · unfold get_filtered_nodes
    by_cases he : (survivingNodes nodes selStates selCities minConn minInfl minPapers minPanels
        minTrials).isEmpty
    · rw [if_pos he]
      exact Nat.zero_le _
    · rw [if_neg he]
      rw [List.length_take, List.length_insertionSort]
      exact le_trans (min_le_left _ _) (le_refl _)
  · intro hsnil
    unfold get_filtered_nodes
    rw [if_pos (List.isEmpty_iff.mpr hsnil)]
  · intro hnil
    subst hnil
    unfold get_filtered_nodes
    rw [if_pos (List.isEmpty_iff.mpr survivingNodes_nil)]

/-- Witness for C6 at a concrete input: the unrestricted filter with
`top_n = 2` on the three-row example table respects the size bound, and
the returned top row is a row of the input table. -/
theorem node_filter_spec_witness :
    (get_filtered_nodes exNodes 2 [] [] 0 0 0 0 0 SortKey.connections).length
      ≤ min 2 (survivingNodes exNodes [] [] 0 0 0 0 0).length
    ∧ (⟨1, "Alice", 15, 5, "Lima", "OH", 2, 3, 1⟩ : ProviderNode) ∈ exNodes :=
  ⟨(node_filter_spec exNodes 2 [] [] 0 0 0 0 0 SortKey.connections).1,
   ((node_filter_spec exNodes 2 [] [] 0 0 0 0 0 SortKey.connections).2.1
      ⟨1, "Alice", 15, 5, "Lima", "OH", 2, 3, 1⟩ (by decide)).1⟩

/-- C2: the summary classifies the target as Key Opinion Leader exactly
when its influence, its connections and its combined activity
(papers + panels + trials) each meet or exceed the 90th percentile of that
metric over the full node table, and as Standard HCP otherwise. -/
theorem kol_classification_spec (nodes : List ProviderNode) (df : List EdgeRecord) (id : Nat)
    (hcp : ProviderNode) (h : findRow nodes id = some hcp) :
    ((generate_hcp_summary_data (some id) nodes df).map (·.kol_status) = some "Key Opinion Leader"
      ↔ (kolInfluenceThreshold nodes ≤ hcp.influence
          ∧ kolConnectionsThreshold nodes ≤ (hcp.connections : Rat)
          ∧ kolActivityThreshold nodes ≤ ((hcp.papers + hcp.panels + hcp.trials : Nat) : Rat)))
    ∧ (¬ (kolInfluenceThreshold nodes ≤ hcp.influence
          ∧ kolConnectionsThreshold nodes ≤ (hcp.connections : Rat)
          ∧ kolActivityThreshold nodes ≤ ((hcp.papers + hcp.panels + hcp.trials : Nat) : Rat)) →
        (generate_hcp_summary_data (some id) nodes df).map (·.kol_status) = some "Standard HCP") := by
  rw [generate_eq_some h]
  simp only [Option.map_some']
  have hk : isKol nodes hcp = true ↔ (kolInfluenceThreshold nodes ≤ hcp.influence
      ∧ kolConnectionsThreshold nodes ≤ (hcp.connections : Rat)
      ∧ kolActivityThreshold nodes ≤ ((hcp.papers + hcp.panels + hcp.trials : Nat) : Rat)) := by
    simp [isKol, and_assoc]
  by_cases hkol : isKol nodes hcp = true
  · rw [if_pos hkol]
    exact ⟨⟨fun _ => hk.mp hkol, fun _ => rfl⟩, fun hnp => absurd (hk.mp hkol) hnp⟩
  · rw [if_neg hkol]
    refine ⟨⟨fun he => ?_, fun hp => absurd (hk.mpr hp) hkol⟩, fun _ => rfl⟩
    exact absurd (Option.some.inj he) (by decide)

/-- Witness for C2 at a concrete input: the example target misses the
influence threshold, so the classification is Standard HCP. -/
theorem kol_classification_spec_witness :
    (generate_hcp_summary_data (some 1) exNodes exDf).map (·.kol_status) = some "Standard HCP" :=
  (kol_classification_spec exNodes exDf 1 ⟨1, "Alice", 15, 5, "Lima", "OH", 2, 3, 1⟩
    (by decide)).2 (by with_unfolding_all decide)

theorem foldlMin_le_init {l : List Rat} {a : Rat} : l.foldl min a ≤ a := by
  induction l generalizing a with
  | nil => exact le_refl a
  | cons b t ih => exact le_trans ih (min_le_left a b)

theorem foldlMin_le_mem {l : List Rat} {a x : Rat} (hx : x ∈ l) : l.foldl min a ≤ x := by
  induction l generalizing a with
  | nil => cases hx
  | cons b t ih =>
    rcases List.mem_cons.mp hx with rfl | hxt
    · have h1 : (x :: t).foldl min a = t.foldl min (min a x) := rfl
      rw [h1]
      exact le_trans foldlMin_le_init (min_le_right a x)
    · exact ih hxt

theorem pandasMin_le {xs : List Rat} {x : Rat} (hx : x ∈ xs) : pandasMin xs ≤ x := by
  cases xs with
  | nil => cases hx
  | cons a t =>
    rcases List.mem_cons.mp hx with rfl | hxt
    · exact foldlMin_le_init
    · exact foldlMin_le_mem hxt

/-- C4: for a node table with more than one row the influence percentile
equals the share of providers with strictly lower influence among the
other `n - 1` providers, as a percentage (the target row itself never
counts, and the value is 0 whenever the target holds the minimum
influence); for a single-row table the summary reports the target as the
sole provider with percentile 0. -/
theorem influence_percentile_spec (nodes : List ProviderNode) (df : List EdgeRecord) (id : Nat)
    (hcp : ProviderNode) (h : findRow nodes id = some hcp) :
    (1 < nodes.length →
      (generate_hcp_summary_data (some id) nodes df).map (·.influence_percentile)
        = some (((nodes.filter (fun r => r.influence < hcp.influence)).length : Rat)
            / ((nodes.length : Rat) - 1) * 100))
    ∧ ((∀ r ∈ nodes, hcp.influence ≤ r.influence) →
        (generate_hcp_summary_data (some id) nodes df).map (·.influence_percentile) = some 0)
    ∧ (nodes.length = 1 →
        (generate_hcp_summary_data (some id) nodes df).map (·.influence_percentile) = some 0
        ∧ (generate_hcp_summary_data (some id) nodes df).map (·.influence_rank_text)
            = some " (only HCP in the network)") := by
  rw [generate_eq_some h]
  simp only [Option.map_some']
  refine ⟨?_, ?_, ?_⟩
  · intro hlen
    unfold influencePercentile
    rw [if_pos hlen]
    by_cases hne : (hcp.influence != pandasMin (nodes.map (·.influence))) = true
    · rw [if_pos hne]
    · rw [if_neg hne]
      have heq : hcp.influence = pandasMin (nodes.map (·.influence)) := by
        simpa [bne_iff_ne] using hne
      have hfil : nodes.filter (fun r => r.influence < hcp.influence) = [] := by
        rw [List.filter_eq_nil_iff]
        intro r hr
        have hle : pandasMin (nodes.map (·.influence)) ≤ r.influence :=
          pandasMin_le (List.mem_map.mpr ⟨r, hr, rfl⟩)
        rw [← heq] at hle
        simp only [decide_eq_true_eq, not_lt]
        exact hle
      rw [hfil]
      simp
  · intro hmin
    have hfil : nodes.filter (fun r => r.influence < hcp.influence) = [] := by
      rw [List.filter_eq_nil_iff]
      intro r hr
      simp only [decide_eq_true_eq, not_lt]
      exact hmin r hr
    unfold influencePercentile
    by_cases hlen : 1 < nodes.length
    · rw [if_pos hlen]
      by_cases hne : (hcp.influence != pandasMin (nodes.map (·.influence))) = true
      · rw [if_pos hne, hfil]
        simp
      · rw [if_neg hne]
    · rw [if_neg hlen]
  · intro hone
    have hlt : ¬ 1 < nodes.length := by omega
    have h1 : influencePercentile nodes hcp.influence = 0 := by
      unfold influencePercentile
      rw [if_neg hlt]
    have h2 : influenceRankText nodes hcp.influence = " (only HCP in the network)" := by
      unfold influenceRankText
      rw [if_neg hlt]
    exact ⟨by rw [h1], by rw [h2]⟩

/-- Witness for C4 at a concrete input: in the three-row example table the
target with influence 5 sits above exactly one of the two other
providers. -/
theorem influence_percentile_spec_witness :
    (generate_hcp_summary_data (some 1) exNodes exDf).map (·.influence_percentile)
      = some (((exNodes.filter (fun r => r.influence
            < (⟨1, "Alice", 15, 5, "Lima", "OH", 2, 3, 1⟩ : ProviderNode).influence)).length : Rat)
          / ((exNodes.length : Rat) - 1) * 100) :=
  (influence_percentile_spec exNodes exDf 1 ⟨1, "Alice", 15, 5, "Lima", "OH", 2, 3, 1⟩
    (by decide)).1 (by decide)

theorem get_all_npis (df : List EdgeRecord) :
    (get_all_hcps_details df).map (·.NPI) = ((sideObservations df).map (·.NPI)).dedup := by
  unfold get_all_hcps_details
  rw [List.map_map]
  have : ((fun r : ProviderNode => r.NPI) ∘ fun id => aggregateGroup id (groupObs df id))
      = fun id => id := rfl
  rw [this]
  simp

theorem mem_sideObservations_npi {df : List EdgeRecord} {id : Nat} :
    id ∈ (sideObservations df).map (·.NPI) ↔ ∃ e ∈ df, e.NPI_1 = id ∨ e.NPI_2 = id := by
  simp only [sideObservations, List.map_append, List.map_map, List.mem_append, List.mem_map,
    Function.comp_def, hcp1View, hcp2View]
  constructor
  · rintro (⟨e, he, hid⟩ | ⟨e, he, hid⟩)
    · exact ⟨e, he, Or.inl hid⟩
    · exact ⟨e, he, Or.inr hid⟩
  · rintro ⟨e, he, hid | hid⟩
    · exact Or.inl ⟨e, he, hid⟩
    · exact Or.inr ⟨e, he, hid⟩

theorem mem_get_all {df : List EdgeRecord} {r : ProviderNode}
    (hr : r ∈ get_all_hcps_details df) :
    r = aggregateGroup r.NPI (groupObs df r.NPI) ∧ groupObs df r.NPI ≠ [] := by
  unfold get_all_hcps_details at hr
  rw [List.mem_map] at hr
  obtain ⟨id, hid, heq⟩ := hr
  have hnpi : r.NPI = id := by rw [← heq]; rfl
  subst hnpi
  have hobs : r.NPI ∈ (sideObservations df).map (·.NPI) := List.mem_dedup.mp hid
  rw [List.mem_map] at hobs
  obtain ⟨o, ho, hono⟩ := hobs
  refine ⟨heq.symm, ?_⟩
  intro hnil
  have : o ∈ groupObs df r.NPI := by
    unfold groupObs
    rw [List.mem_filter]
    exact ⟨ho, by simpa [beq_iff_eq] using hono⟩
  rw [hnil] at this
  cases this

theorem aggregateGroup_fields (id : Nat) (g : List SideObs) (hg : g ≠ []) :
    (∀ nm, (g.filterMap (·.hcp_name)).head? = some nm → (aggregateGroup id g).hcp_name = nm)
    ∧ (∀ o ∈ g, o.connections ≤ (aggregateGroup id g).connections
        ∧ o.papers.getD 0 ≤ (aggregateGroup id g).papers
        ∧ o.panels.getD 0 ≤ (aggregateGroup id g).panels
        ∧ o.trials.getD 0 ≤ (aggregateGroup id g).trials)
    ∧ (aggregateGroup id g).connections ∈ g.map (·.connections)
    ∧ (aggregateGroup id g).papers ∈ g.map (fun o => o.papers.getD 0)
    ∧ (aggregateGroup id g).panels ∈ g.map (fun o => o.panels.getD 0)
    ∧ (aggregateGroup id g).trials ∈ g.map (fun o => o.trials.getD 0)
    ∧ (∀ o, g.head? = some o → (aggregateGroup id g).influence = o.influence
        ∧ (aggregateGroup id g).city = o.city ∧ (aggregateGroup id g).state = o.state) := by
  have hmapne : ∀ {α : Type} (f : SideObs → α), g.map f ≠ [] := by
    intro α f hnil
    rw [List.map_eq_nil_iff] at hnil
    exact hg hnil
  refine ⟨?_, ?_, ?_, ?_, ?_, ?_, ?_⟩
  · intro nm hnm
    simp [aggregateGroup, hnm]
  · intro o ho
    exact ⟨foldrMax_le_of_mem (List.mem_map.mpr ⟨o, ho, rfl⟩),
      foldrMax_le_of_mem (List.mem_map.mpr ⟨o, ho, rfl⟩),
      foldrMax_le_of_mem (List.mem_map.mpr ⟨o, ho, rfl⟩),
      foldrMax_le_of_mem (List.mem_map.mpr ⟨o, ho, rfl⟩)⟩
  · exact foldrMax_mem (hmapne _)
  · exact foldrMax_mem (hmapne _)
  · exact foldrMax_mem (hmapne _)
  · exact foldrMax_mem (hmapne _)
  · intro o ho
    refine ⟨?_, ?_, ?_⟩ <;>
      simp [aggregateGroup, List.head?_map, ho]

/-- C1: the Node Aggregator produces exactly one row per distinct provider
id appearing on either side of any edge (its id column has no duplicates
and covers exactly those ids), and on each row the name is the first
non-missing name among the id's side observations (taken in the order
side-1 views then side-2 views), connections is the maximum observed,
influence, city and state are the first observed, and papers, panels and
trials are the maximum observed with missing values read as 0. -/
theorem node_aggregator_spec (df : List EdgeRecord) (r : ProviderNode)
    (hr : r ∈ get_all_hcps_details df) :
    ((get_all_hcps_details df).map (·.NPI)).Nodup
    ∧ (∀ id, id ∈ (get_all_hcps_details df).map (·.NPI)
        ↔ ∃ e ∈ df, e.NPI_1 = id ∨ e.NPI_2 = id)
    ∧ (∀ nm, ((groupObs df r.NPI).filterMap (·.hcp_name)).head? = some nm → r.hcp_name = nm)
    ∧ (∀ o ∈ groupObs df r.NPI, o.connections ≤ r.connections ∧ o.papers.getD 0 ≤ r.papers
        ∧ o.panels.getD 0 ≤ r.panels ∧ o.trials.getD 0 ≤ r.trials)
    ∧ r.connections ∈ (groupObs df r.NPI).map (·.connections)
    ∧ r.papers ∈ (groupObs df r.NPI).map (fun o => o.papers.getD 0)
    ∧ r.panels ∈ (groupObs df r.NPI).map (fun o => o.panels.getD 0)
    ∧ r.trials ∈ (groupObs df r.NPI).map (fun o => o.trials.getD 0)
    ∧ (∀ o, (groupObs df r.NPI).head? = some o →
        r.influence = o.influence ∧ r.city = o.city ∧ r.state = o.state) := by
  obtain ⟨hagg, hne⟩ := mem_get_all hr
  have hfields := aggregateGroup_fields r.NPI (groupObs df r.NPI) hne
  rw [← hagg] at hfields
  refine ⟨?_, ?_, hfields.1, hfields.2.1, hfields.2.2.1, hfields.2.2.2.1,
    hfields.2.2.2.2.1, hfields.2.2.2.2.2.1, hfields.2.2.2.2.2.2⟩
  · rw [get_all_npis]
    exact List.nodup_dedup _
  · intro id
    rw [get_all_npis, List.mem_dedup]
    exact mem_sideObservations_npi

/-- Witness for C1 at a concrete input: on the example edge store the id
column is duplicate-free, provider 1 keeps the first observed name and the
maximum observed connection count, and the first observation fixes its
influence, city and state. -/
theorem node_aggregator_spec_witness :
    ((get_all_hcps_details exDf).map (·.NPI)).Nodup
    ∧ (⟨1, "Alice", 15, 5, "Lima", "OH", 2, 3, 1⟩ : ProviderNode).hcp_name = "Alice"
    ∧ (⟨1, "Alice", 15, 5, "Lima", "OH", 2, 3, 1⟩ : ProviderNode).connections
        ∈ (groupObs exDf (⟨1, "Alice", 15, 5, "Lima", "OH", 2, 3, 1⟩ : ProviderNode).NPI).map
            (·.connections) :=
  ⟨(node_aggregator_spec exDf ⟨1, "Alice", 15, 5, "Lima", "OH", 2, 3, 1⟩ (by decide)).1,
   (node_aggregator_spec exDf ⟨1, "Alice", 15, 5, "Lima", "OH", 2, 3, 1⟩ (by decide)).2.2.1
      "Alice" (by decide),
   (node_aggregator_spec exDf ⟨1, "Alice", 15, 5, "Lima", "OH", 2, 3, 1⟩ (by decide)).2.2.2.2.1⟩

/-- C10: a self-loop row (both sides equal to the target id) counts as a
direct connection — it enters the direct-connection set over which the
connection count, the average strength and the metric counts are computed —
the target then appears as an entry of its own top-connections list, and
the target id is nevertheless excluded from the connected-id set used for
the distinct states/cities diversity counts. -/
theorem self_loop_spec (df : List EdgeRecord) (e : EdgeRecord) (id : Nat)
    (he : e ∈ df) (h1 : e.NPI_1 = id) (h2 : e.NPI_2 = id) :
    e ∈ directConnections df id
    ∧ (∃ s, generate_hcp_summary_data (some id) (get_all_hcps_details df) df = some s
        ∧ s.avg_connection_strength = avgStrength (directConnections df id)
        ∧ (∃ c ∈ s.top_connections_list, c.npi = id))
    ∧ id ∉ connectedNpis df id
    ∧ (∀ m, e.Metrics = some m → m ∈ allDirectMetrics (directConnections df id)) := by
  have hedc : e ∈ directConnections df id := by
    unfold directConnections
    rw [List.mem_filter]
    refine ⟨he, ?_⟩
    simp [h1]
  have hnotin : id ∉ connectedNpis df id := by
    unfold connectedNpis
    intro hmem
    rw [List.mem_filter] at hmem
    have := hmem.2
    simp at this
  have hmm : ∀ m, e.Metrics = some m → m ∈ allDirectMetrics (directConnections df id) := by
    intro m hm
    unfold allDirectMetrics
    exact List.mem_filterMap.mpr ⟨e, hedc, hm⟩
  have hid : id ∈ (get_all_hcps_details df).map (·.NPI) := by
    rw [get_all_npis, List.mem_dedup]
    exact mem_sideObservations_npi.mpr ⟨e, he, Or.inl h1⟩
  obtain ⟨hcp, hfind⟩ := findRow_isSome hid
  have hoe : otherEndpoint e id = id := by
    unfold otherEndpoint
    rw [if_pos (by simp [h1])]
    exact h2
  have hentry : topConnEntry (get_all_hcps_details df) id e
      = some { name := hcp.hcp_name, npi := id
             , strength := e.overallConnectionStrength, influence := hcp.influence
             , metric_type := (e.Metrics).getD "General Collaboration"
             , impact_statement := impactStatement ((e.Metrics).getD "General Collaboration") hcp } := by
    unfold topConnEntry
    rw [hoe, hfind]
  refine ⟨hedc, ⟨_, generate_eq_some hfind, rfl, ?_⟩, hnotin, hmm⟩
  refine ⟨{ name := hcp.hcp_name, npi := id
          , strength := e.overallConnectionStrength, influence := hcp.influence
          , metric_type := (e.Metrics).getD "General Collaboration"
          , impact_statement := impactStatement ((e.Metrics).getD "General Collaboration") hcp },
    ?_, rfl⟩
  unfold topConnections
  rw [(List.perm_insertionSort connDescLe _).mem_iff]
  exact List.mem_filterMap.mpr ⟨e, hedc, hentry⟩

/-- Witness for C10 at a concrete input: the single self-loop row of
provider 5 is a direct connection of provider 5, and provider 5 is absent
from its own connected-id diversity set. -/
theorem self_loop_spec_witness :
    exLoopEdge ∈ directConnections exLoopDf 5 ∧ 5 ∉ connectedNpis exLoopDf 5 :=
  ⟨(self_loop_spec exLoopDf exLoopEdge 5 (by simp [exLoopDf]) rfl rfl).1,
   (self_loop_spec exLoopDf exLoopEdge 5 (by simp [exLoopDf]) rfl rfl).2.2.1⟩

theorem topConnEntry_none {nodes : List ProviderNode} {id : Nat} {e : EdgeRecord}
    (h : findRow nodes (otherEndpoint e id) = none) : topConnEntry nodes id e = none := by
  unfold topConnEntry
  rw [h]

theorem topConnEntry_some {nodes : List ProviderNode} {id : Nat} {e : EdgeRecord}
    {rr : ProviderNode} (h : findRow nodes (otherEndpoint e id) = some rr) :
    topConnEntry nodes id e = some
      { name := rr.hcp_name, npi := otherEndpoint e id
      , strength := e.overallConnectionStrength, influence := rr.influence
      , metric_type := (e.Metrics).getD "General Collaboration"
      , impact_statement := impactStatement ((e.Metrics).getD "General Collaboration") rr } := by
  unfold topConnEntry
  rw [h]

/-- C5: every top-connections entry arises from a direct connection whose
other endpoint resolves in the node table (connections with an absent
endpoint are skipped), its impact statement follows the priority: a fixed
wording for each of the five fixed metric categories, otherwise the first
positive activity count of the resolved endpoint in the order papers,
panels, trials, otherwise the generic key-professional-collaboration
sentence; and the resulting list is sorted descending by the composite
score `0.6 * influence + 0.4 * strength`. -/
theorem top_connections_spec (nodes : List ProviderNode) (df : List EdgeRecord) (id : Nat)
    (hcp : ProviderNode) (h : findRow nodes id = some hcp) :
    ((generate_hcp_summary_data (some id) nodes df).map (·.top_connections_list)
        = some (topConnections nodes df id))
    ∧ List.Sorted connDescLe (topConnections nodes df id)
    ∧ (topConnections nodes df id).Perm
        ((directConnections df id).filterMap (topConnEntry nodes id))
    ∧ (∀ c ∈ topConnections nodes df id, ∃ rr ∈ nodes, rr.NPI = c.npi)
    ∧ (∀ e, findRow nodes (otherEndpoint e id) = none → topConnEntry nodes id e = none)
    ∧ (∀ e rr, findRow nodes (otherEndpoint e id) = some rr →
        ∃ c, topConnEntry nodes id e = some c
          ∧ c.npi = otherEndpoint e id
          ∧ c.strength = e.overallConnectionStrength
          ∧ c.influence = rr.influence
          ∧ (e.Metrics = some "Publishers" →
              c.impact_statement = "Co-authored on publications.")
          ∧ (e.Metrics = some "Affiliations" →
              c.impact_statement = "Shared professional affiliations.")
          ∧ (e.Metrics = some "Promotional Events" →
              c.impact_statement = "Collaborated on promotional events.")
          ∧ (e.Metrics = some "Clinical Trials" →
              c.impact_statement = "Participated in clinical trials.")
          ∧ (e.Metrics = some "Panels" →
              c.impact_statement = "Contributed to advisory panels.")
          ∧ (((e.Metrics).getD "General Collaboration") ∉ definedMetrics →
              (0 < rr.papers →
                c.impact_statement = "Collaborated on " ++ Nat.repr rr.papers ++ " papers.")
              ∧ (rr.papers = 0 → 0 < rr.panels →
                c.impact_statement = "Contributed to " ++ Nat.repr rr.panels ++ " panels.")
              ∧ (rr.papers = 0 → rr.panels = 0 → 0 < rr.trials →
                c.impact_statement = "Engaged in " ++ Nat.repr rr.trials ++ " trials.")
              ∧ (rr.papers = 0 → rr.panels = 0 → rr.trials = 0 →
                c.impact_statement = "Engaged in a key professional collaboration."))) := by
  refine ⟨by rw [generate_eq_some h]; rfl, List.sorted_insertionSort connDescLe _,
    List.perm_insertionSort connDescLe _, ?_, fun e => topConnEntry_none, ?_⟩
  · intro c hc
    unfold topConnections at hc
    rw [(List.perm_insertionSort connDescLe _).mem_iff, List.mem_filterMap] at hc
    obtain ⟨e, hedc, hentry⟩ := hc
    cases hfr : findRow nodes (otherEndpoint e id) with
    | none => rw [topConnEntry_none hfr] at hentry; cases hentry
    | some rr =>
      rw [topConnEntry_some hfr] at hentry
      obtain ⟨hrr, hnpi⟩ := findRow_some hfr
      refine ⟨rr, hrr, ?_⟩
      have hc := Option.some.inj hentry
      rw [hnpi, ← hc]
  · intro e rr hfr
    refine ⟨_, topConnEntry_some hfr, rfl, rfl, rfl, ?_, ?_, ?_, ?_, ?_, ?_⟩
    · intro hm
      simp [impactStatement, hm]
    · intro hm
      simp [impactStatement, hm]
    · intro hm
      simp [impactStatement, hm]
    · intro hm
      simp [impactStatement, hm]
    · intro hm
      simp [impactStatement, hm]
    · intro hnot
      simp only [definedMetrics, List.mem_cons, List.mem_singleton, not_or] at hnot
      have hn1 := hnot.1
      have hn2 := hnot.2.1
      have hn3 := hnot.2.2.1
      have hn4 := hnot.2.2.2.1
      have hn5 := hnot.2.2.2.2.1
      refine ⟨?_, ?_, ?_, ?_⟩
      · intro hp
        simp only [impactStatement, if_neg hn1, if_neg hn2, if_neg hn3, if_neg hn4, if_neg hn5,
          if_pos hp]
      · intro hp0 hpa
        have hnp : ¬ 0 < rr.papers := by omega
        simp only [impactStatement, if_neg hn1, if_neg hn2, if_neg hn3, if_neg hn4, if_neg hn5,
          if_neg hnp, if_pos hpa]
      · intro hp0 hpa0 htr
        have hnp : ¬ 0 < rr.papers := by omega
        have hnpa : ¬ 0 < rr.panels := by omega
        simp only [impactStatement, if_neg hn1, if_neg hn2, if_neg hn3, if_neg hn4, if_neg hn5,
          if_neg hnp, if_neg hnpa, if_pos htr]
      · intro hp0 hpa0 htr0
        have hnp : ¬ 0 < rr.papers := by omega
        have hnpa : ¬ 0 < rr.panels := by omega
        have hntr : ¬ 0 < rr.trials := by omega
        simp only [impactStatement, if_neg hn1, if_neg hn2, if_neg hn3, if_neg hn4, if_neg hn5,
          if_neg hnp, if_neg hnpa, if_neg hntr]

/-- Witness for C5 at a concrete input: the example top-connections list of
provider 1 is sorted descending by composite score, and the entry built
from the Panels-labelled connection carries the fixed Panels wording. -/
theorem top_connections_spec_witness :
    List.Sorted connDescLe (topConnections exNodes exDf 1)
    ∧ (topConnEntry exNodes 1 exEdge2).isSome :=
  ⟨(top_connections_spec exNodes exDf 1 ⟨1, "Alice", 15, 5, "Lima", "OH", 2, 3, 1⟩
      (by decide)).2.1,
   by
    obtain ⟨c, hc, -⟩ := (top_connections_spec exNodes exDf 1
        ⟨1, "Alice", 15, 5, "Lima", "OH", 2, 3, 1⟩ (by decide)).2.2.2.2.2 exEdge2
        ⟨3, "Cara", 7, 9, "Waco", "TX", 1, 3, 0⟩ (by decide)
    rw [hc]
    rfl⟩

theorem list_sum_map_add {α M : Type*} [AddCommMonoid M] (l : List α) (f g : α → M) :
    (l.map (fun x => f x + g x)).sum = (l.map f).sum + (l.map g).sum := by
  induction l with
  | nil => simp
  | cons a t ih =>
    simp only [List.map_cons, List.sum_cons, ih, add_add_add_comm]

theorem sum_indicator_nodup {cats : List String} (hnd : cats.Nodup) (v : String) :
    (cats.map (fun m => if v == m then 1 else 0)).sum = (if v ∈ cats then 1 else 0) := by
  induction cats with
  | nil => simp
  | cons c cs ih =>
    rw [List.nodup_cons] at hnd
    simp only [List.map_cons, List.sum_cons]
    by_cases hvc : v = c
    · subst hvc
      rw [ih hnd.2]
      simp [hnd.1]
    · rw [ih hnd.2]
      simp [hvc, beq_iff_eq]

theorem count_split (cats : List String) (hnd : cats.Nodup) (ms : List String) :
    (cats.map (fun m => (ms.filter (fun v => v == m)).length)).sum
      + (ms.filter (fun v => !(cats.contains v))).length = ms.length := by
  induction ms with
  | nil => simp
  | cons v rest ih =>
    have h1 : ∀ m : String, (List.filter (fun x => x == m) (v :: rest)).length
        = (List.filter (fun x => x == m) rest).length + (if v == m then 1 else 0) := by
      intro m
      rw [List.filter_cons]
      by_cases hv : (v == m) = true
      · rw [if_pos hv, if_pos hv, List.length_cons]
      · rw [if_neg hv, if_neg hv, Nat.add_zero]
    have h2 : (cats.map (fun m => (List.filter (fun x => x == m) (v :: rest)).length)).sum
        = (cats.map (fun m => (List.filter (fun x => x == m) rest).length)).sum
          + (cats.map (fun m => if v == m then 1 else 0)).sum := by
      rw [← list_sum_map_add]
      exact congrArg List.sum (List.map_congr_left (fun m _ => h1 m))
    have h3 : (List.filter (fun x => !(cats.contains x)) (v :: rest)).length
        = (List.filter (fun x => !(cats.contains x)) rest).length
          + (if v ∈ cats then 0 else 1) := by
      rw [List.filter_cons]
      by_cases hv : v ∈ cats
      · have hcv : (!(cats.contains v)) = false := by simp [hv]
        rw [hcv]
        simp [hv]
      · have hcv : (!(cats.contains v)) = true := by simp [hv]
        rw [hcv]
        simp [hv]
    rw [h2, h3, sum_indicator_nodup hnd v, List.length_cons]
    by_cases hv : v ∈ cats
    · rw [if_pos hv, if_pos hv] at *
      omega
    · rw [if_neg hv, if_neg hv] at *
      omega

theorem totalMetricInstances_eq (dc : List EdgeRecord) :
    totalMetricInstances dc = (allDirectMetrics dc).length := by
  unfold totalMetricInstances bucketCount otherMetricsCount
  exact count_split definedMetrics (by decide) (allDirectMetrics dc)

theorem sortedMetricItems_length (dc : List EdgeRecord) : (sortedMetricItems dc).length = 5 := by
  unfold sortedMetricItems
  rw [List.length_insertionSort, List.length_map]
  rfl

theorem sorted_head_max {l : List (String × Nat)} (hs : List.Sorted pairDescLe l)
    {x : String × Nat} (hx : x ∈ l) : x.2 ≤ (l.headD ("", 0)).2 := by
  cases l with
  | nil => cases hx
  | cons a t =>
    rw [List.sorted_cons] at hs
    rcases List.mem_cons.mp hx with rfl | hxt
    · exact le_refl _
    · exact hs.1 x hxt

theorem mem_sortedMetricItems {dc : List EdgeRecord} {m : String} (hm : m ∈ definedMetrics) :
    (m, bucketCount dc m) ∈ sortedMetricItems dc := by
  unfold sortedMetricItems
  rw [(List.perm_insertionSort pairDescLe _).mem_iff]
  exact List.mem_map.mpr ⟨m, hm, rfl⟩

theorem second_mem_sortedMetricItems (dc : List EdgeRecord) :
    (sortedMetricItems dc).getD 1 ("", 0) ∈ sortedMetricItems dc := by
  have hlen : 1 < (sortedMetricItems dc).length := by
    rw [sortedMetricItems_length]
    omega
  rw [List.getD_eq_getElem _ _ hlen]
  exact List.getElem_mem hlen

theorem allDirectMetrics_not_empty {dc : List EdgeRecord}
    (htot : 0 < totalMetricInstances dc) : ¬ ((allDirectMetrics dc).isEmpty = true) := by
  rw [totalMetricInstances_eq] at htot
  cases hms : allDirectMetrics dc with
  | nil => rw [hms] at htot; simp at htot
  | cons a t => simp

theorem metricsBreakdown_pos (dc : List EdgeRecord) (htot : 0 < totalMetricInstances dc) :
    metricsBreakdown dc = ((definedMetrics.filter (fun m => 0 < bucketCount dc m)).map
        (fun m => breakdownLine m (bucketCount dc m)
          ((bucketCount dc m : Rat) / (totalMetricInstances dc : Rat) * 100)))
      ++ (if 0 < otherMetricsCount dc then
            [breakdownLine "Other/Undefined" (otherMetricsCount dc)
              ((otherMetricsCount dc : Rat) / (totalMetricInstances dc : Rat) * 100)]
          else []) := by
  unfold metricsBreakdown
  rw [if_pos htot]

theorem metricsInterpretation_pos (dc : List EdgeRecord) (htot : 0 < totalMetricInstances dc) :
    metricsInterpretation dc =
      if 1 < (sortedMetricItems dc).length && 0 < ((sortedMetricItems dc).getD 1 ("", 0)).2 then
        "This highlights a strong focus on **"
          ++ (if 0 < ((sortedMetricItems dc).headD ("", 0)).2 then
                ((sortedMetricItems dc).headD ("", 0)).1
              else "diverse engagement")
          ++ "** connections, with notable engagement in **"
          ++ ((sortedMetricItems dc).getD 1 ("", 0)).1 ++ "**."
      else
        "This HCP's network shows a strong focus on **"
          ++ (if 0 < ((sortedMetricItems dc).headD ("", 0)).2 then
                ((sortedMetricItems dc).headD ("", 0)).1
              else "diverse engagement")
          ++ "** connections." := by
  unfold metricsInterpretation
  rw [if_pos htot, if_neg (allDirectMetrics_not_empty htot)]

theorem sortedMetricItems_sorted (dc : List EdgeRecord) :
    List.Sorted pairDescLe (sortedMetricItems dc) :=
  List.sorted_insertionSort pairDescLe _

/-- C9 (amended): the metrics breakdown counts the target's direct
connections per the five fixed categories plus an Other/Undefined bucket
for any non-missing label not matching them (the buckets partition the
categorised connections), reports each non-zero bucket with its percentage
of the categorised total; the interpretation names the top one or two
categories among the five fixed ones when at least one of those five
buckets is non-zero, falls back to the placeholder wording
`diverse engagement` when only the Other/Undefined bucket is non-zero, and
when no categorised connections exist at all the breakdown carries a
single neutral message while the interpretation is the empty string. -/
theorem metrics_breakdown_spec (nodes : List ProviderNode) (df : List EdgeRecord) (id : Nat)
    (hcp : ProviderNode) (h : findRow nodes id = some hcp) :
    ((generate_hcp_summary_data (some id) nodes df).map (·.metrics_breakdown)
        = some (metricsBreakdown (directConnections df id)))
    ∧ ((generate_hcp_summary_data (some id) nodes df).map (·.metrics_interpretation)
        = some (metricsInterpretation (directConnections df id)))
    ∧ totalMetricInstances (directConnections df id)
        = (allDirectMetrics (directConnections df id)).length
    ∧ (totalMetricInstances (directConnections df id) = 0 →
        metricsBreakdown (directConnections df id) = [noMetricsLine]
          ∧ metricsInterpretation (directConnections df id) = "")
    ∧ (0 < totalMetricInstances (directConnections df id) →
        metricsBreakdown (directConnections df id)
          = ((definedMetrics.filter (fun m => 0 < bucketCount (directConnections df id) m)).map
              (fun m => breakdownLine m (bucketCount (directConnections df id) m)
                ((bucketCount (directConnections df id) m : Rat)
                  / (totalMetricInstances (directConnections df id) : Rat) * 100)))
            ++ (if 0 < otherMetricsCount (directConnections df id) then
                  [breakdownLine "Other/Undefined" (otherMetricsCount (directConnections df id))
                    ((otherMetricsCount (directConnections df id) : Rat)
                      / (totalMetricInstances (directConnections df id) : Rat) * 100)]
                else []))
    ∧ (∀ m ∈ definedMetrics, bucketCount (directConnections df id) m
        ≤ ((sortedMetricItems (directConnections df id)).headD ("", 0)).2)
    ∧ (0 < totalMetricInstances (directConnections df id) →
        0 < ((sortedMetricItems (directConnections df id)).getD 1 ("", 0)).2 →
        metricsInterpretation (directConnections df id)
          = "This highlights a strong focus on **"
            ++ ((sortedMetricItems (directConnections df id)).headD ("", 0)).1
            ++ "** connections, with notable engagement in **"
            ++ ((sortedMetricItems (directConnections df id)).getD 1 ("", 0)).1 ++ "**.")
    ∧ (0 < totalMetricInstances (directConnections df id) →
        0 < ((sortedMetricItems (directConnections df id)).headD ("", 0)).2 →
        ((sortedMetricItems (directConnections df id)).getD 1 ("", 0)).2 = 0 →
        metricsInterpretation (directConnections df id)
          = "This HCP's network shows a strong focus on **"
            ++ ((sortedMetricItems (directConnections df id)).headD ("", 0)).1
            ++ "** connections.")
    ∧ (0 < totalMetricInstances (directConnections df id) →
        ((sortedMetricItems (directConnections df id)).headD ("", 0)).2 = 0 →
        metricsInterpretation (directConnections df id)
          = "This HCP's network shows a strong focus on **diverse engagement** connections.") := by
  refine ⟨by rw [generate_eq_some h]; rfl, by rw [generate_eq_some h]; rfl,
    totalMetricInstances_eq _, ?_, metricsBreakdown_pos _, ?_, ?_, ?_, ?_⟩
  · intro h0
    constructor
    · unfold metricsBreakdown
      rw [if_neg (by omega)]
    · unfold metricsInterpretation
      rw [if_neg (by omega)]
  · intro m hm
    exact sorted_head_max (List.sorted_insertionSort pairDescLe _) (mem_sortedMetricItems hm)
  · intro htot hsec
    rw [metricsInterpretation_pos _ htot]
    have hcond : (1 < (sortedMetricItems (directConnections df id)).length
        && 0 < ((sortedMetricItems (directConnections df id)).getD 1 ("", 0)).2) = true := by
      simp only [Bool.and_eq_true, decide_eq_true_eq]
      exact ⟨by rw [sortedMetricItems_length]; omega, hsec⟩
    rw [if_pos hcond]
    have htop : 0 < ((sortedMetricItems (directConnections df id)).headD ("", 0)).2 :=
      lt_of_lt_of_le hsec
        (sorted_head_max (List.sorted_insertionSort pairDescLe _)
          (second_mem_sortedMetricItems _))
    rw [if_pos htop]
  · intro htot htop hsec
    rw [metricsInterpretation_pos _ htot]
    have hcond : ¬ ((1 < (sortedMetricItems (directConnections df id)).length
        && 0 < ((sortedMetricItems (directConnections df id)).getD 1 ("", 0)).2) = true) := by
      simp only [Bool.and_eq_true, decide_eq_true_eq]
      intro hc
      omega
    rw [if_neg hcond, if_pos htop]
  · intro htot htop
    rw [metricsInterpretation_pos _ htot]
    have hsec : ((sortedMetricItems (directConnections df id)).getD 1 ("", 0)).2 = 0 := by
      have hle := sorted_head_max (sortedMetricItems_sorted (directConnections df id))
        (second_mem_sortedMetricItems (directConnections df id))
      omega
    have hcond : ¬ ((1 < (sortedMetricItems (directConnections df id)).length
        && 0 < ((sortedMetricItems (directConnections df id)).getD 1 ("", 0)).2) = true) := by
      simp only [Bool.and_eq_true, decide_eq_true_eq]
      intro hc
      omega
    rw [if_neg hcond, if_neg (by omega)]
    rfl

/-- Witness for C9 at a concrete input: provider 7 has one direct
connection carrying no metric label, so the breakdown is the single
neutral line and the interpretation is empty. -/
theorem metrics_breakdown_spec_witness :
    metricsBreakdown (directConnections exPlainDf 7) = [noMetricsLine]
    ∧ metricsInterpretation (directConnections exPlainDf 7) = "" :=
  (metrics_breakdown_spec (get_all_hcps_details exPlainDf) exPlainDf 7
    ⟨7, "Eve", 1, 2, "Ames", "IA", 0, 0, 0⟩ (by decide)).2.2.2.1 (by decide)

/-- C9 counterexample to the claim as stated: on an edge store whose only
direct connection of provider 1 carries the unrecognised label
`Expert Network`, categorised connections exist (the Other/Undefined
bucket holds that one connection while every fixed bucket is zero), yet
the produced interpretation names no non-zero category and is not the
neutral no-categorised-connections message: it cites the placeholder
`diverse engagement`. -/
theorem metrics_interpretation_cex :
    (generate_hcp_summary_data (some 1) (get_all_hcps_details exOtherDf) exOtherDf).map
        (·.metrics_interpretation)
      = some "This HCP's network shows a strong focus on **diverse engagement** connections."
    ∧ 0 < totalMetricInstances (directConnections exOtherDf 1)
    ∧ definedMetrics.map (bucketCount (directConnections exOtherDf 1)) = [0, 0, 0, 0, 0]
    ∧ otherMetricsCount (directConnections exOtherDf 1) = 1
    ∧ metricsBreakdown (directConnections exOtherDf 1) ≠ [noMetricsLine] := by
  refine ⟨by decide, by decide, by decide, by decide, by with_unfolding_all decide⟩

theorem list_sum_map_neg_mul_log (l : List Real) :
    (l.map (fun p => -(p * Real.log p))).sum = -((l.map (fun p => p * Real.log p)).sum) := by
  induction l with
  | nil => simp
  | cons a t ih =>
    simp only [List.map_cons, List.sum_cons, ih]
    ring

theorem list_sum_map_div {α : Type*} (l : List α) (f : α → Real) (c : Real) :
    (l.map (fun x => f x / c)).sum = (l.map f).sum / c := by
  induction l with
  | nil => simp
  | cons a t ih =>
    simp only [List.map_cons, List.sum_cons, ih, add_div]

theorem list_sum_affine (l : List Real) (a b : Real) :
    (l.map (fun p => a + p * b)).sum = l.length * a + l.sum * b := by
  induction l with
  | nil => simp
  | cons p t ih =>
    simp only [List.map_cons, List.sum_cons, ih, List.length_cons]
    push_cast
    ring

theorem negMulLog_le_aux {p k : Real} (hp : 0 < p) (hk : 0 < k) :
    -(p * Real.log p) ≤ 1 / k + p * (Real.log k - 1) := by
  have h1 : Real.log (1 / (k * p)) ≤ 1 / (k * p) - 1 :=
    Real.log_le_sub_one_of_pos (by positivity)
  have h2 : -(p * Real.log p) = p * (Real.log (1 / (k * p)) + Real.log k) := by
    rw [one_div, Real.log_inv, Real.log_mul (ne_of_gt hk) (ne_of_gt hp)]
    ring
  have h3 : p * (Real.log (1 / (k * p)) + Real.log k)
      ≤ p * ((1 / (k * p) - 1) + Real.log k) := by
    apply mul_le_mul_of_nonneg_left _ (le_of_lt hp)
    linarith
  have h4 : p * ((1 / (k * p) - 1) + Real.log k) = 1 / k + p * (Real.log k - 1) := by
    field_simp
    ring
  linarith

theorem sum_neg_mul_log_le {l : List Real} (hpos : ∀ p ∈ l, 0 < p) (hsum : l.sum = 1) :
    -((l.map (fun p => p * Real.log p)).sum) ≤ Real.log (l.length : Real) := by
  have hne : l ≠ [] := by
    rintro rfl
    simp at hsum
  have hk : (0 : Real) < (l.length : Real) := by
    have h0 : 0 < l.length := List.length_pos.mpr hne
    exact_mod_cast h0
  have hstep : (l.map (fun p => -(p * Real.log p))).sum
      ≤ (l.map (fun p => 1 / (l.length : Real)
          + p * (Real.log (l.length : Real) - 1))).sum :=
    List.sum_le_sum (fun p hp => negMulLog_le_aux (hpos p hp) hk)
  rw [list_sum_map_neg_mul_log, list_sum_affine, hsum] at hstep
  have heq : (l.length : Real) * (1 / (l.length : Real))
      + 1 * (Real.log (l.length : Real) - 1) = Real.log (l.length : Real) := by
    field_simp
  linarith

theorem logb_sum_eq (l : List Real) :
    (l.map (fun p => p * Real.logb 2 p)).sum
      = (l.map (fun p => p * Real.log p)).sum / Real.log 2 := by
  rw [← list_sum_map_div]
  apply congrArg List.sum
  apply List.map_congr_left
  intro p _
  rw [Real.logb, mul_div_assoc]

theorem shannonEntropySpec_le {l : List Real} (hpos : ∀ p ∈ l, 0 < p) (hsum : l.sum = 1) :
    shannonEntropySpec l ≤ Real.logb 2 (l.length : Real) := by
  unfold shannonEntropySpec
  rw [logb_sum_eq, Real.logb, ← neg_div]
  have hlog2 : (0 : Real) < Real.log 2 := Real.log_pos (by norm_num)
  exact (div_le_div_iff_of_pos_right hlog2).mpr (sum_neg_mul_log_le hpos hsum)

theorem shannonEntropySpec_nonneg {l : List Real} (hpos : ∀ p ∈ l, 0 < p) (hsum : l.sum = 1) :
    0 ≤ shannonEntropySpec l := by
  unfold shannonEntropySpec
  rw [neg_nonneg]
  have hterm : ∀ p ∈ l, p * Real.logb 2 p ≤ 0 := by
    intro p hp
    have hp1 : p ≤ 1 := by
      have hle := List.single_le_sum (fun x hx => le_of_lt (hpos x hx)) p hp
      rw [hsum] at hle
      exact hle
    have hlb : Real.logb 2 p ≤ 0 :=
      Real.logb_nonpos (by norm_num) (le_of_lt (hpos p hp)) hp1
    calc p * Real.logb 2 p ≤ p * 0 := mul_le_mul_of_nonneg_left hlb (le_of_lt (hpos p hp))
      _ = 0 := mul_zero p
  calc (l.map (fun p => p * Real.logb 2 p)).sum
      ≤ (l.map (fun _ => (0 : Real))).sum := List.sum_le_sum hterm
    _ = 0 := by simp

theorem shannonEntropy_eq_spec {l : List Real} (hpos : ∀ p ∈ l, 0 < p) :
    shannonEntropy l = shannonEntropySpec l := by
  unfold shannonEntropy shannonEntropySpec
  exact congrArg Neg.neg (congrArg List.sum
    (List.map_congr_left (fun p hp => if_pos (hpos p hp))))

theorem metricProbs_pos {counts : List Nat} (hpos : ∀ c ∈ counts, 0 < c) :
    ∀ p ∈ metricProbs counts, 0 < p := by
  intro p hp
  unfold metricProbs at hp
  rw [List.mem_map] at hp
  obtain ⟨c, hc, rfl⟩ := hp
  have hcpos : 0 < c := hpos c hc
  have hsum : 0 < counts.sum :=
    lt_of_lt_of_le hcpos (List.single_le_sum (fun _ _ => Nat.zero_le _) c hc)
  exact div_pos (by exact_mod_cast hcpos) (by exact_mod_cast hsum)

theorem metricProbs_sum {counts : List Nat} (hne : counts ≠ []) (hpos : ∀ c ∈ counts, 0 < c) :
    (metricProbs counts).sum = 1 := by
  unfold metricProbs
  rw [list_sum_map_div, ← Nat.cast_list_sum]
  have hT : (counts.sum : Real) ≠ 0 := by
    have h0 : 0 < counts.sum := by
      cases counts with
      | nil => exact absurd rfl hne
      | cons a t =>
        have ha := hpos a (List.mem_cons_self a t)
        simp only [List.sum_cons]
        omega
    have : (0 : Real) < (counts.sum : Real) := by exact_mod_cast h0
    exact ne_of_gt this
  exact div_self hT

theorem metricCountsOf_pos (df : List EdgeRecord) (id : Nat) :
    ∀ c ∈ metricCountsOf df id, 0 < c := by
  intro c hc
  simp only [metricCountsOf, metricCounts, List.map_map] at hc
  rw [List.mem_map] at hc
  obtain ⟨m, hm, rfl⟩ := hc
  exact List.count_pos_iff.mpr (List.mem_dedup.mp hm)

/-- C3: the collaboration diversity score always lies in the interval
[0, 1]; it is exactly 0 when the target has zero or one direct-connection
metric categories (the degenerate log2(1) = 0 case is special-cased, not a
division error); and with at least two categories it equals the Shannon
entropy of the metric-type frequency distribution divided by log2 of the
number of distinct categories present. -/
theorem collaboration_diversity_spec (df : List EdgeRecord) (id : Nat) :
    (0 ≤ collaboration_diversity_score df id ∧ collaboration_diversity_score df id ≤ 1)
    ∧ ((metricCountsOf df id).length ≤ 1 → collaboration_diversity_score df id = 0)
    ∧ (2 ≤ (metricCountsOf df id).length →
        collaboration_diversity_score df id
          = shannonEntropySpec (metricProbs (metricCountsOf df id))
            / Real.logb 2 ((metricCountsOf df id).length : Real)) := by
  have hpos : ∀ c ∈ metricCountsOf df id, 0 < c := metricCountsOf_pos df id
  by_cases hemp : (metricCountsOf df id).isEmpty
  · have hzero : collaboration_diversity_score df id = 0 := by
      unfold collaboration_diversity_score
      rw [if_pos hemp]
    refine ⟨⟨by rw [hzero], by rw [hzero]; norm_num⟩, fun _ => hzero, fun h2 => ?_⟩
    rw [List.isEmpty_iff] at hemp
    rw [hemp] at h2
    simp at h2
  · have hne : metricCountsOf df id ≠ [] := by
      intro hn
      rw [hn] at hemp
      exact hemp rfl
    have hlen : 0 < (metricCountsOf df id).length := List.length_pos.mpr hne
    have hprobs_pos : ∀ p ∈ metricProbs (metricCountsOf df id), 0 < p := metricProbs_pos hpos
    have hprobs_sum : (metricProbs (metricCountsOf df id)).sum = 1 := metricProbs_sum hne hpos
    have hprobs_len : (metricProbs (metricCountsOf df id)).length
        = (metricCountsOf df id).length := by
      unfold metricProbs
      rw [List.length_map]
    have hguard : shannonEntropy (metricProbs (metricCountsOf df id))
        = shannonEntropySpec (metricProbs (metricCountsOf df id)) :=
      shannonEntropy_eq_spec hprobs_pos
    by_cases h2 : 2 ≤ (metricCountsOf df id).length
    · have hgt1 : (1 : Real) < ((metricCountsOf df id).length : Real) := by
        have : (2 : Nat) ≤ (metricCountsOf df id).length := h2
        exact_mod_cast lt_of_lt_of_le one_lt_two (by exact_mod_cast this)
      have hmaxpos : 0 < Real.logb 2 ((metricCountsOf df id).length : Real) :=
        Real.logb_pos (by norm_num) hgt1
      have hval : collaboration_diversity_score df id
          = shannonEntropySpec (metricProbs (metricCountsOf df id))
            / Real.logb 2 ((metricCountsOf df id).length : Real) := by
        unfold collaboration_diversity_score
        rw [if_neg hemp, if_pos hlen, if_pos hmaxpos, hguard]
      have hH0 : 0 ≤ shannonEntropySpec (metricProbs (metricCountsOf df id)) :=
        shannonEntropySpec_nonneg hprobs_pos hprobs_sum
      have hH1 : shannonEntropySpec (metricProbs (metricCountsOf df id))
          ≤ Real.logb 2 ((metricCountsOf df id).length : Real) := by
        have hle := shannonEntropySpec_le hprobs_pos hprobs_sum
        rw [hprobs_len] at hle
        exact hle
      refine ⟨⟨?_, ?_⟩, fun h1 => by omega, fun _ => hval⟩
      · rw [hval]
        exact div_nonneg hH0 (le_of_lt hmaxpos)
      · rw [hval]
        exact (div_le_one hmaxpos).mpr hH1
    · have hone : (metricCountsOf df id).length = 1 := by omega
      have hmax0 : Real.logb 2 ((metricCountsOf df id).length : Real) = 0 := by
        rw [hone]
        simp
      have hzero : collaboration_diversity_score df id = 0 := by
        unfold collaboration_diversity_score
        rw [if_neg hemp, if_pos hlen, hmax0, if_neg (lt_irrefl 0)]
      refine ⟨⟨by rw [hzero], by rw [hzero]; norm_num⟩, fun _ => hzero, fun hc => by omega⟩

/-- Witness for C3 at a concrete input: provider 5 of the self-loop store
has exactly one metric category, so its diversity score is exactly 0. -/
theorem collaboration_diversity_spec_witness :
    collaboration_diversity_score exLoopDf 5 = 0 :=
  (collaboration_diversity_spec exLoopDf 5).2.1 (by decide)
